import Mathlib

/-!
Verification development for the `AllocatedBool` R1CS boolean gadget
(`src/boolean/allocated.rs`).

The gadget code is embedded shallowly: the shared, interior-mutable
`ConstraintSystemRef` of the source is threaded through every operation as an
explicit state value, and fallible Rust functions returning
`Result<_, SynthesisError>` become Lean functions returning `Except`.

The constraint-system engine itself (`ark-relations`) is an external
collaborator whose code is not part of the source under verification; its
operations are modelled from the spec's §6 interface description (see the
doc comments marked "Modelled from the spec").
-/

/-- Errors surfaced by this layer (from `ark_relations::r1cs::SynthesisError`;
only the variants this gadget can produce or propagate are modelled). -/
inductive SynthesisError where
  | AssignmentMissing
  | Unsatisfiable
deriving DecidableEq

/-- An R1CS variable handle (`ark_relations::r1cs::Variable`): the two reserved
constant handles, public-input (instance) and private-witness indices, and
variables bound to stored linear combinations (used by `not`). -/
inductive Variable where
  | Zero
  | One
  | Instance (i : Nat)
  | Witness (i : Nat)
  | SymbolicLc (i : Nat)
deriving DecidableEq

/-- A linear combination: a formal weighted sum of variable handles. -/
abbrev LC (F : Type) := List (F × Variable)

/-- Modelled from the spec: the external constraint-system state visible through
the §6 interface.  `construct_matrices` is the materializing/counting mode flag;
assignments are `Option`-valued because allocation succeeds even when the value
provider fails (setup-only execution); `lc_map` stores the linear combinations
created by `new_lc`; `num_constraints` is the counter that the non-materializing
fast path bumps directly. -/
structure ConstraintSystem (F : Type) where
  construct_matrices : Bool
  instance_assignment : List (Option F)
  witness_assignment : List (Option F)
  lc_map : List (LC F)
  constraints : List (LC F × LC F × LC F)
  num_constraints : Nat
deriving DecidableEq

/-- Modelled from the spec: `should_construct_matrices()` tells a gadget which
of the two execution modes is active. -/
def ConstraintSystem.should_construct_matrices {F : Type} (st : ConstraintSystem F) : Bool :=
  st.construct_matrices

/-- Modelled from the spec: `new_witness_variable(value_or_absent)` allocates a
private variable, recording the (possibly absent) assignment. -/
def ConstraintSystem.new_witness_variable {F : Type} (st : ConstraintSystem F)
    (v : Option F) : Variable × ConstraintSystem F :=
  (Variable.Witness st.witness_assignment.length,
   { st with witness_assignment := st.witness_assignment ++ [v] })

/-- Modelled from the spec: `new_input_variable(value_or_absent)` allocates a
public variable, recording the (possibly absent) assignment. -/
def ConstraintSystem.new_input_variable {F : Type} (st : ConstraintSystem F)
    (v : Option F) : Variable × ConstraintSystem F :=
  (Variable.Instance st.instance_assignment.length,
   { st with instance_assignment := st.instance_assignment ++ [v] })

/-- Modelled from the spec: `new_lc(expression)` allocates a variable bound to
a purely affine expression (used by NOT). -/
def ConstraintSystem.new_lc {F : Type} (st : ConstraintSystem F)
    (l : LC F) : Variable × ConstraintSystem F :=
  (Variable.SymbolicLc st.lc_map.length, { st with lc_map := st.lc_map ++ [l] })

/-- Modelled from the spec: `enforce_constraint(A, B, C)` records `A·B = C` in
materializing mode (and accounts for it in the constraint count). -/
def ConstraintSystem.enforce_constraint {F : Type} (st : ConstraintSystem F)
    (a b c : LC F) : ConstraintSystem F :=
  { st with
    constraints := st.constraints ++ [(a, b, c)],
    num_constraints := st.num_constraints + 1 }

/-- Modelled from the spec: the non-materializing-mode counter bump
(`cs.borrow_mut().unwrap().num_constraints += 1` in the source). -/
def ConstraintSystem.increment_constraint_count {F : Type} (st : ConstraintSystem F) :
    ConstraintSystem F :=
  { st with num_constraints := st.num_constraints + 1 }

/-- `F::from(bool)`: the field element `1` for `true` and `0` for `false`. -/
def boolToF {F : Type} [CommRing F] (b : Bool) : F :=
  if b then 1 else 0

/-- `AllocationMode` from the source (`Constant`, `Input`, `Witness`). -/
inductive AllocationMode where
  | Constant
  | Input
  | Witness
deriving DecidableEq

/-- `AllocatedBool<F>`: a variable in the constraint system which is guaranteed
to be either zero or one.  The `cs` field of the source (a shared handle) is
threaded explicitly through the operations instead of being stored. -/
structure AllocatedBool (F : Type) where
  var : Variable
  enable_lc : Bool
  value : Option Bool
deriving DecidableEq

/-- `AllocatedBool::new`. -/
def AllocatedBool.new {F : Type} (value : Option Bool) (v : Variable)
    (st : ConstraintSystem F) : AllocatedBool F :=
  { value := value, var := v, enable_lc := st.should_construct_matrices }

/-- `AllocatedBool::value`: get the assigned value for `self`
(`self.value.ok_or(SynthesisError::AssignmentMissing)`). -/
def AllocatedBool.value? {F : Type} (a : AllocatedBool F) : Except SynthesisError Bool :=
  match a.value with
  | some b => .ok b
  | none => .error SynthesisError.AssignmentMissing

/-- `AllocatedBool::variable`: get the R1CS variable for `self`. -/
def AllocatedBool.getVariable {F : Type} (a : AllocatedBool F) : Variable :=
  a.var

/-- `AllocatedBool::new_witness_without_booleanity_check`: allocate a witness
variable without a booleanity check.  The deferred provider is modelled by its
result `f`. -/
def AllocatedBool.new_witness_without_booleanity_check {F : Type} [CommRing F]
    (st : ConstraintSystem F) (f : Except SynthesisError Bool) :
    Except SynthesisError (AllocatedBool F × ConstraintSystem F) :=
  let value := f
  let p := st.new_witness_variable (value.toOption.map boolToF)
  .ok ({ var := p.1, enable_lc := p.2.should_construct_matrices,
         value := value.toOption }, p.2)

/-- `AllocatedBool::not`: the result variable is bound via `new_lc` to
`1 - self.variable` when `self.enable_lc` holds, and to the empty linear
combination otherwise; no constraint is added and no witness is allocated. -/
def AllocatedBool.not {F : Type} [CommRing F] (a : AllocatedBool F)
    (st : ConstraintSystem F) :
    Except SynthesisError (AllocatedBool F × ConstraintSystem F) :=
  let p := st.new_lc (if a.enable_lc then
      [((1 : F), Variable.One), (-1, a.var)]
    else [])
  .ok ({ var := p.1, value := a.value.map (fun v => !v),
         enable_lc := p.2.should_construct_matrices }, p.2)

/-- `AllocatedBool::xor`: constrain `(a + a) * b = a + b - c`. -/
def AllocatedBool.xor {F : Type} [CommRing F] (a b : AllocatedBool F)
    (st : ConstraintSystem F) :
    Except SynthesisError (AllocatedBool F × ConstraintSystem F) := do
  let (result, st1) ← AllocatedBool.new_witness_without_booleanity_check st
    (do pure (Bool.xor (← a.value?) (← b.value?)))
  let st2 :=
    if a.enable_lc then
      st1.enforce_constraint
        [((1 : F), a.var), (1, a.var)]
        [((1 : F), b.var)]
        [((1 : F), a.var), (1, b.var), (-1, result.var)]
    else
      st1.increment_constraint_count
  pure (result, st2)

/-- `AllocatedBool::and`: constrain `a * b = c`. -/
def AllocatedBool.and {F : Type} [CommRing F] (a b : AllocatedBool F)
    (st : ConstraintSystem F) :
    Except SynthesisError (AllocatedBool F × ConstraintSystem F) := do
  let (result, st1) ← AllocatedBool.new_witness_without_booleanity_check st
    (do pure ((← a.value?) && (← b.value?)))
  let st2 :=
    if a.enable_lc then
      st1.enforce_constraint
        [((1 : F), a.var)]
        [((1 : F), b.var)]
        [((1 : F), result.var)]
    else
      st1.increment_constraint_count
  pure (result, st2)

/-- `AllocatedBool::or`: constrain `(1 - a) * (1 - b) = 1 - c`. -/
def AllocatedBool.or {F : Type} [CommRing F] (a b : AllocatedBool F)
    (st : ConstraintSystem F) :
    Except SynthesisError (AllocatedBool F × ConstraintSystem F) := do
  let (result, st1) ← AllocatedBool.new_witness_without_booleanity_check st
    (do pure ((← a.value?) || (← b.value?)))
  let st2 :=
    if a.enable_lc then
      st1.enforce_constraint
        [((1 : F), Variable.One), (-1, a.var)]
        [((1 : F), Variable.One), (-1, b.var)]
        [((1 : F), Variable.One), (-1, result.var)]
    else
      st1.increment_constraint_count
  pure (result, st2)

/-- `AllocatedBool::and_not`: calculates `a AND (NOT b)`;
constrain `a * (1 - b) = c`. -/
def AllocatedBool.and_not {F : Type} [CommRing F] (a b : AllocatedBool F)
    (st : ConstraintSystem F) :
    Except SynthesisError (AllocatedBool F × ConstraintSystem F) := do
  let (result, st1) ← AllocatedBool.new_witness_without_booleanity_check st
    (do pure ((← a.value?) && !(← b.value?)))
  let st2 :=
    if a.enable_lc then
      st1.enforce_constraint
        [((1 : F), a.var)]
        [((1 : F), Variable.One), (-1, b.var)]
        [((1 : F), result.var)]
    else
      st1.increment_constraint_count
  pure (result, st2)

/-- `AllocatedBool::nor`: calculates `(NOT a) AND (NOT b)`;
constrain `(1 - a) * (1 - b) = c`. -/
def AllocatedBool.nor {F : Type} [CommRing F] (a b : AllocatedBool F)
    (st : ConstraintSystem F) :
    Except SynthesisError (AllocatedBool F × ConstraintSystem F) := do
  let (result, st1) ← AllocatedBool.new_witness_without_booleanity_check st
    (do pure (!((← a.value?) || (← b.value?))))
  let st2 :=
    if a.enable_lc then
      st1.enforce_constraint
        [((1 : F), Variable.One), (-1, a.var)]
        [((1 : F), Variable.One), (-1, b.var)]
        [((1 : F), result.var)]
    else
      st1.increment_constraint_count
  pure (result, st2)

/-- `AllocVar::new_variable` for `AllocatedBool`: produces a new variable of
the appropriate kind (constant, instance or witness), with a booleanity check
in the non-constant modes. -/
def new_variable {F : Type} [CommRing F] (st : ConstraintSystem F)
    (f : Except SynthesisError Bool) (mode : AllocationMode) :
    Except SynthesisError (AllocatedBool F × ConstraintSystem F) :=
  if mode = AllocationMode.Constant then do
    let value ← f
    pure ({ var := if value then Variable.One else Variable.Zero,
            enable_lc := st.should_construct_matrices,
            value := some value }, st)
  else
    let value := f
    let p :=
      if mode = AllocationMode.Input then
        st.new_input_variable (value.toOption.map boolToF)
      else
        st.new_witness_variable (value.toOption.map boolToF)
    let en := p.2.should_construct_matrices
    let st2 :=
      if en then
        p.2.enforce_constraint
          [((1 : F), Variable.One), (-1, p.1)]
          [((1 : F), p.1)]
          []
      else
        p.2.increment_constraint_count
    .ok ({ var := p.1, enable_lc := en, value := value.toOption }, st2)

/-- `AllocVar::new_witness`, as used by the source's tests. -/
def new_witness {F : Type} [CommRing F] (st : ConstraintSystem F)
    (f : Except SynthesisError Bool) :
    Except SynthesisError (AllocatedBool F × ConstraintSystem F) :=
  new_variable st f AllocationMode.Witness

/-- The sibling `Boolean<F>` abstraction: a tagged union of a compile-time
constant and an allocated variable. -/
inductive Boolean (F : Type) where
  | Var (b : AllocatedBool F)
  | Constant (b : Bool)

/-- Modelled from the spec: `CondSelectGadget::conditionally_select` for
`AllocatedBool`.  The collaborator `Boolean::conditionally_select` is external
(its code is not part of the source under verification), so the delegation is
modelled over an arbitrary collaborator `s`.  The source's `unreachable!` arm
is modelled as the result `none`. -/
def conditionally_select {F : Type}
    (s : Boolean F → Boolean F → Boolean F → ConstraintSystem F →
      Except SynthesisError (Boolean F × ConstraintSystem F))
    (cond : Boolean F) (true_val false_val : AllocatedBool F)
    (st : ConstraintSystem F) :
    Except SynthesisError (Option (AllocatedBool F) × ConstraintSystem F) :=
  match s cond (.Var true_val) (.Var false_val) st with
  | .error e => .error e
  | .ok (.Var a, st') => .ok (some a, st')
  | .ok (.Constant _, st') => .ok (none, st')

/-- Fuel-bounded evaluation of a variable handle under a constraint-system
state: the reserved handles are the constants, instance/witness handles read
the recorded assignments (absent assignments make evaluation fail), and an
lc-bound handle evaluates its stored linear combination, spending one unit of
fuel.  `none` means the value is undetermined (missing assignment, dangling
index, or insufficient fuel). -/
def evalVarB {F : Type} [CommRing F] (st : ConstraintSystem F) :
    Nat → Variable → Option F
  | _, Variable.One => some 1
  | _, Variable.Zero => some 0
  | _, Variable.Instance i => (st.instance_assignment.get? i).bind id
  | _, Variable.Witness i => (st.witness_assignment.get? i).bind id
  | 0, Variable.SymbolicLc _ => none
  | b + 1, Variable.SymbolicLc i =>
    (st.lc_map.get? i).bind fun l =>
      l.foldr (fun p acc =>
        (evalVarB st b p.2).bind fun x => acc.map fun r => p.1 * x + r) (some 0)

/-- Fuel-bounded evaluation of a linear combination. -/
def evalLCB {F : Type} [CommRing F] (st : ConstraintSystem F) (b : Nat)
    (l : LC F) : Option F :=
  l.foldr (fun p acc =>
    (evalVarB st b p.2).bind fun x => acc.map fun r => p.1 * x + r) (some 0)

/-- Evaluation of a linear combination with enough fuel for every
well-formed stored linear combination. -/
def evalLCtop {F : Type} [CommRing F] (st : ConstraintSystem F) (l : LC F) :
    Option F :=
  evalLCB st st.lc_map.length l

/-- Whether a single recorded constraint `A·B = C` holds under the recorded
assignments. -/
def constraintHolds {F : Type} [CommRing F] [DecidableEq F]
    (st : ConstraintSystem F) (t : LC F × LC F × LC F) : Bool :=
  match evalLCtop st t.1, evalLCtop st t.2.1, evalLCtop st t.2.2 with
  | some x, some y, some z => decide (x * y = z)
  | _, _, _ => false

/-- Modelled from the spec: `is_satisfied` — every recorded constraint holds
under the recorded assignments. -/
def is_satisfied {F : Type} [CommRing F] [DecidableEq F]
    (st : ConstraintSystem F) : Bool :=
  st.constraints.all (constraintHolds st)

/-- The total coefficient a linear combination assigns to a variable handle. -/
def lcCoeff {F : Type} [CommRing F] [DecidableEq Variable]
    (l : LC F) (v : Variable) : F :=
  (l.map fun p => if p.2 = v then p.1 else 0).sum

/-- Semantic equality of two linear combinations: equal total coefficients on
every handle occurring in either. -/
def lcEquiv {F : Type} [CommRing F] [DecidableEq F] (l k : LC F) : Bool :=
  (l.map Prod.snd ++ k.map Prod.snd).all fun v => decide (lcCoeff l v = lcCoeff k v)

/-- Whether a recorded constraint is of the booleanity form
`(1 - v) * v = 0`, up to semantic equality of its linear combinations. -/
def isBooleanityOn {F : Type} [CommRing F] [DecidableEq F]
    (t : LC F × LC F × LC F) (v : Variable) : Bool :=
  lcEquiv t.1 [((1 : F), Variable.One), (-1, v)] &&
  lcEquiv t.2.1 [((1 : F), v)] &&
  lcEquiv t.2.2 []

/-- Whether the constraint system holds a constraint of the booleanity form
`(1 - v) * v = 0` on the handle `v`. -/
def hasBooleanity {F : Type} [CommRing F] [DecidableEq F]
    (st : ConstraintSystem F) (v : Variable) : Bool :=
  st.constraints.any fun t => isBooleanityOn t v

/-- The booleanity constraint triple enforced by non-constant allocation. -/
def booleanityC {F : Type} [CommRing F] (v : Variable) : LC F × LC F × LC F :=
  ([((1 : F), Variable.One), (-1, v)], [((1 : F), v)], [])

/-- A variable handle references no stored linear combination of index `≥ n`. -/
def varBndB (n : Nat) : Variable → Bool
  | Variable.SymbolicLc i => decide (i < n)
  | _ => true

/-- Every handle of a linear combination is bounded by `n`. -/
def lcBndB {F : Type} (n : Nat) (l : LC F) : Bool :=
  l.all fun p => varBndB n p.2

/-- Each stored linear combination references only earlier stored ones. -/
def lcMapWfB {F : Type} (st : ConstraintSystem F) : Bool :=
  (List.range st.lc_map.length).all fun i => lcBndB i ((st.lc_map.get? i).getD [])

/-- Every recorded constraint references only stored linear combinations. -/
def constraintsBndB {F : Type} (st : ConstraintSystem F) : Bool :=
  st.constraints.all fun t =>
    lcBndB st.lc_map.length t.1 && lcBndB st.lc_map.length t.2.1 &&
      lcBndB st.lc_map.length t.2.2

/-- Valuation-based reading of a handle: the reserved handles denote the
constants; any other handle is read from the valuation. -/
def valAt {F : Type} [CommRing F] (rho : Variable → F) : Variable → F
  | Variable.One => 1
  | Variable.Zero => 0
  | v => rho v

/-- Valuation-based evaluation of a linear combination as a polynomial over
the non-reserved handles. -/
def evalLCAt {F : Type} [CommRing F] (rho : Variable → F) (l : LC F) : F :=
  (l.map fun p => p.1 * valAt rho p.2).sum

/-- A fresh constraint system in materializing (full synthesis) mode, over the
integers (a concrete commutative ring standing in for the field). -/
def initCS : ConstraintSystem ℤ :=
  { construct_matrices := true, instance_assignment := [], witness_assignment := [],
    lc_map := [], constraints := [], num_constraints := 0 }

/-- A fresh constraint system in non-materializing (counting) mode. -/
def countCS : ConstraintSystem ℤ :=
  { construct_matrices := false, instance_assignment := [], witness_assignment := [],
    lc_map := [], constraints := [], num_constraints := 0 }

/-- A throwaway default gadget, used only to extract the payload of results
that are known to be `ok`. -/
def dfltAB : AllocatedBool ℤ :=
  { var := Variable.Zero, enable_lc := false, value := none }

/-- Extract the payload of an `ok` result (the default is never reached in the
concrete runs below). -/
def exOk (x : Except SynthesisError (AllocatedBool ℤ × ConstraintSystem ℤ)) :
    AllocatedBool ℤ × ConstraintSystem ℤ :=
  match x with
  | .ok v => v
  | .error _ => (dfltAB, initCS)

/-- One end-to-end scenario for a binary operator: allocate `x` and `y` as
witnesses on a fresh materializing constraint system, apply `op`, and check
that the result's cached value is `f x y` and the system is satisfied. -/
def boolOpCheck
    (op : AllocatedBool ℤ → AllocatedBool ℤ → ConstraintSystem ℤ →
      Except SynthesisError (AllocatedBool ℤ × ConstraintSystem ℤ))
    (f : Bool → Bool → Bool) (x y : Bool) : Bool :=
  match new_witness initCS (.ok x) with
  | .error _ => false
  | .ok (a, st1) =>
    match new_witness st1 (.ok y) with
    | .error _ => false
    | .ok (b, st2) =>
      match op a b st2 with
      | .error _ => false
      | .ok (c, st3) => c.value == some (f x y) && is_satisfied st3

/-- The end-to-end scenario for NOT: allocate `x` as a witness and negate it. -/
def notOpCheck (x : Bool) : Bool :=
  match new_witness initCS (.ok x) with
  | .error _ => false
  | .ok (a, st1) =>
    match AllocatedBool.not a st1 with
    | .error _ => false
    | .ok (c, st2) => c.value == some (!x) && is_satisfied st2

/-- One step of a circuit-construction trace: an allocation (constant /
public input / private witness, with the provider's outcome) or a logic
operator applied to earlier results, referenced by position. -/
inductive Op where
  | allocC (b : Bool)
  | allocI (v : Option Bool)
  | allocW (v : Option Bool)
  | opNot (i : Nat)
  | opXor (i j : Nat)
  | opAnd (i j : Nat)
  | opOr (i j : Nat)
  | opAndNot (i j : Nat)
  | opNor (i j : Nat)

/-- A provider outcome as the `Except` the gadget receives. -/
def toExc (v : Option Bool) : Except SynthesisError Bool :=
  match v with
  | some b => .ok b
  | none => .error SynthesisError.AssignmentMissing

/-- The state of a running trace: the constraint system plus the gadgets
produced so far. -/
structure RunState (F : Type) where
  st : ConstraintSystem F
  env : List (AllocatedBool F)

/-- Record a successful construction's result; a failed construction leaves
the run state unchanged. -/
def pushResult {F : Type} (r : RunState F)
    (x : Except SynthesisError (AllocatedBool F × ConstraintSystem F)) :
    RunState F :=
  match x with
  | .ok (g, st') => { st := st', env := r.env ++ [g] }
  | .error _ => r

/-- Apply a binary operator to the gadgets at positions `i` and `j`;
out-of-range references leave the run state unchanged. -/
def binApp {F : Type} (r : RunState F)
    (op : AllocatedBool F → AllocatedBool F → ConstraintSystem F →
      Except SynthesisError (AllocatedBool F × ConstraintSystem F))
    (i j : Nat) : RunState F :=
  match r.env.get? i, r.env.get? j with
  | some a, some b => pushResult r (op a b r.st)
  | _, _ => r

/-- Execute one trace step. -/
def step {F : Type} [CommRing F] (r : RunState F) (o : Op) : RunState F :=
  match o with
  | Op.allocC b => pushResult r (new_variable r.st (.ok b) AllocationMode.Constant)
  | Op.allocI v => pushResult r (new_variable r.st (toExc v) AllocationMode.Input)
  | Op.allocW v => pushResult r (new_variable r.st (toExc v) AllocationMode.Witness)
  | Op.opNot i =>
    match r.env.get? i with
    | some a => pushResult r (AllocatedBool.not a r.st)
    | none => r
  | Op.opXor i j => binApp r AllocatedBool.xor i j
  | Op.opAnd i j => binApp r AllocatedBool.and i j
  | Op.opOr i j => binApp r AllocatedBool.or i j
  | Op.opAndNot i j => binApp r AllocatedBool.and_not i j
  | Op.opNor i j => binApp r AllocatedBool.nor i j

/-- Execute a trace from a run state. -/
def run {F : Type} [CommRing F] (ops : List Op) (r : RunState F) : RunState F :=
  ops.foldl step r

/-- A fresh run state over the integers with the given mode flag. -/
def freshRun (m : Bool) : RunState ℤ :=
  { st := { construct_matrices := m, instance_assignment := [],
            witness_assignment := [], lc_map := [], constraints := [],
            num_constraints := 0 },
    env := [] }

/-- The simulation invariant between a materializing-mode run and a
counting-mode run of the same trace: the mode flags are fixed, every gadget
carries its run's flag, the environments have equal length, and the
constraint counts agree. -/
def Sim {F : Type} (r1 r2 : RunState F) : Prop :=
  r1.st.construct_matrices = true ∧
  r2.st.construct_matrices = false ∧
  (∀ g ∈ r1.env, g.enable_lc = true) ∧
  (∀ g ∈ r2.env, g.enable_lc = false) ∧
  r1.env.length = r2.env.length ∧
  r1.st.num_constraints = r2.st.num_constraints

/-- The constraint triple enforced by XOR: `(a + a) · b = a + b − c`. -/
def xorC {F : Type} [CommRing F] (a b c : Variable) : LC F × LC F × LC F :=
  ([((1 : F), a), (1, a)], [((1 : F), b)], [((1 : F), a), (1, b), (-1, c)])

/-- The constraint triple enforced by AND: `a · b = c`. -/
def andC {F : Type} [CommRing F] (a b c : Variable) : LC F × LC F × LC F :=
  ([((1 : F), a)], [((1 : F), b)], [((1 : F), c)])

/-- The constraint triple enforced by OR: `(1 − a) · (1 − b) = 1 − c`. -/
def orC {F : Type} [CommRing F] (a b c : Variable) : LC F × LC F × LC F :=
  ([((1 : F), Variable.One), (-1, a)], [((1 : F), Variable.One), (-1, b)],
   [((1 : F), Variable.One), (-1, c)])

/-- The constraint triple enforced by AND_NOT: `a · (1 − b) = c`. -/
def andNotC {F : Type} [CommRing F] (a b c : Variable) : LC F × LC F × LC F :=
  ([((1 : F), a)], [((1 : F), Variable.One), (-1, b)], [((1 : F), c)])

/-- The constraint triple enforced by NOR: `(1 − a) · (1 − b) = c`. -/
def norC {F : Type} [CommRing F] (a b c : Variable) : LC F × LC F × LC F :=
  ([((1 : F), Variable.One), (-1, a)], [((1 : F), Variable.One), (-1, b)],
   [((1 : F), c)])

/-- Concrete run: allocate `true` as a private witness on a fresh
materializing system. -/
def runA : AllocatedBool ℤ × ConstraintSystem ℤ :=
  exOk (new_variable initCS (.ok true) AllocationMode.Witness)

/-- Concrete run: allocate a second witness (`true`) on top of `runA`. -/
def runB : AllocatedBool ℤ × ConstraintSystem ℤ :=
  exOk (new_variable runA.2 (.ok true) AllocationMode.Witness)

/-- Concrete run: XOR the two allocated witnesses. -/
def runX : AllocatedBool ℤ × ConstraintSystem ℤ :=
  exOk (AllocatedBool.xor runA.1 runB.1 runB.2)

/-- Concrete run: a further unchecked witness allocation on top of `runX`. -/
def runN : AllocatedBool ℤ × ConstraintSystem ℤ :=
  exOk (AllocatedBool.new_witness_without_booleanity_check runX.2 (.ok false))

/-- Concrete run: a witness allocation on a fresh counting-mode system. -/
def runCnt : AllocatedBool ℤ × ConstraintSystem ℤ :=
  exOk (new_variable countCS (.ok true) AllocationMode.Witness)

/-- Concrete run: AND of the two allocated witnesses (on the state of `runB`). -/
def runAnd : AllocatedBool ℤ × ConstraintSystem ℤ :=
  exOk (AllocatedBool.and runA.1 runB.1 runB.2)

/-- Concrete run: OR of the two allocated witnesses. -/
def runOr : AllocatedBool ℤ × ConstraintSystem ℤ :=
  exOk (AllocatedBool.or runA.1 runB.1 runB.2)

/-- Concrete run: AND_NOT of the two allocated witnesses. -/
def runAndNot : AllocatedBool ℤ × ConstraintSystem ℤ :=
  exOk (AllocatedBool.and_not runA.1 runB.1 runB.2)

/-- Concrete run: NOR of the two allocated witnesses. -/
def runNor : AllocatedBool ℤ × ConstraintSystem ℤ :=
  exOk (AllocatedBool.nor runA.1 runB.1 runB.2)

/-- Concrete run: NOT of the first allocated witness. -/
def runNot1 : AllocatedBool ℤ × ConstraintSystem ℤ :=
  exOk (AllocatedBool.not runA.1 runA.2)

/-- Concrete run: NOT applied a second time. -/
def runNot2 : AllocatedBool ℤ × ConstraintSystem ℤ :=
  exOk (AllocatedBool.not runNot1.1 runNot1.2)

/-- Concrete run: a witness allocation with an always-failing provider, on
top of `runB`. -/
def runFail : AllocatedBool ℤ × ConstraintSystem ℤ :=
  exOk (new_variable runB.2 (.error SynthesisError.AssignmentMissing)
    AllocationMode.Witness)

/-- Concrete run: XOR with a value-less left operand. -/
def runFailX : AllocatedBool ℤ × ConstraintSystem ℤ :=
  exOk (AllocatedBool.xor runFail.1 runB.1 runFail.2)

/-- A gadget whose `enable_lc` snapshot (`true`) disagrees with the current
mode of the counting-mode system it is used on. -/
def mismA : AllocatedBool ℤ :=
  { var := Variable.Witness 0, enable_lc := true, value := some true }

/-- A second such gadget. -/
def mismB : AllocatedBool ℤ :=
  { var := Variable.Witness 1, enable_lc := true, value := some false }

/-- Concrete run: XOR of the mismatched gadgets on a counting-mode system —
the branch follows the operands' snapshot, not the system's current mode. -/
def runMism : AllocatedBool ℤ × ConstraintSystem ℤ :=
  exOk (AllocatedBool.xor mismA mismB countCS)

theorem nwwbc_ok {F : Type} [CommRing F] (st : ConstraintSystem F)
    (f : Except SynthesisError Bool) :
    AllocatedBool.new_witness_without_booleanity_check st f = .ok
      ({ var := Variable.Witness st.witness_assignment.length,
         enable_lc := st.construct_matrices, value := f.toOption },
       { st with
         witness_assignment := st.witness_assignment ++ [f.toOption.map boolToF] }) :=
  rfl

theorem xor_ok_of_enable {F : Type} [CommRing F] (a b : AllocatedBool F)
    (st : ConstraintSystem F) (h : a.enable_lc = true) :
    ∃ v : Option Bool,
      AllocatedBool.xor a b st = .ok
        ({ var := Variable.Witness st.witness_assignment.length,
           enable_lc := st.construct_matrices, value := v },
         { st with
           witness_assignment := st.witness_assignment ++ [v.map boolToF],
           constraints := st.constraints ++
             [xorC a.var b.var (Variable.Witness st.witness_assignment.length)],
           num_constraints := st.num_constraints + 1 }) := by
  rcases a with ⟨av, ae, aval⟩
  have h' : ae = true := h
  subst h'
  exact ⟨_, rfl⟩

theorem xor_ok_of_count {F : Type} [CommRing F] (a b : AllocatedBool F)
    (st : ConstraintSystem F) (h : a.enable_lc = false) :
    ∃ v : Option Bool,
      AllocatedBool.xor a b st = .ok
        ({ var := Variable.Witness st.witness_assignment.length,
           enable_lc := st.construct_matrices, value := v },
         { st with
           witness_assignment := st.witness_assignment ++ [v.map boolToF],
           num_constraints := st.num_constraints + 1 }) := by
  rcases a with ⟨av, ae, aval⟩
  have h' : ae = false := h
  subst h'
  exact ⟨_, rfl⟩

theorem and_ok_of_enable {F : Type} [CommRing F] (a b : AllocatedBool F)
    (st : ConstraintSystem F) (h : a.enable_lc = true) :
    ∃ v : Option Bool,
      AllocatedBool.and a b st = .ok
        ({ var := Variable.Witness st.witness_assignment.length,
           enable_lc := st.construct_matrices, value := v },
         { st with
           witness_assignment := st.witness_assignment ++ [v.map boolToF],
           constraints := st.constraints ++
             [andC a.var b.var (Variable.Witness st.witness_assignment.length)],
           num_constraints := st.num_constraints + 1 }) := by
  rcases a with ⟨av, ae, aval⟩
  have h' : ae = true := h
  subst h'
  exact ⟨_, rfl⟩

theorem and_ok_of_count {F : Type} [CommRing F] (a b : AllocatedBool F)
    (st : ConstraintSystem F) (h : a.enable_lc = false) :
    ∃ v : Option Bool,
      AllocatedBool.and a b st = .ok
        ({ var := Variable.Witness st.witness_assignment.length,
           enable_lc := st.construct_matrices, value := v },
         { st with
           witness_assignment := st.witness_assignment ++ [v.map boolToF],
           num_constraints := st.num_constraints + 1 }) := by
  rcases a with ⟨av, ae, aval⟩
  have h' : ae = false := h
  subst h'
  exact ⟨_, rfl⟩

theorem or_ok_of_enable {F : Type} [CommRing F] (a b : AllocatedBool F)
    (st : ConstraintSystem F) (h : a.enable_lc = true) :
    ∃ v : Option Bool,
      AllocatedBool.or a b st = .ok
        ({ var := Variable.Witness st.witness_assignment.length,
           enable_lc := st.construct_matrices, value := v },
         { st with
           witness_assignment := st.witness_assignment ++ [v.map boolToF],
           constraints := st.constraints ++
             [orC a.var b.var (Variable.Witness st.witness_assignment.length)],
           num_constraints := st.num_constraints + 1 }) := by
  rcases a with ⟨av, ae, aval⟩
  have h' : ae = true := h
  subst h'
  exact ⟨_, rfl⟩

theorem or_ok_of_count {F : Type} [CommRing F] (a b : AllocatedBool F)
    (st : ConstraintSystem F) (h : a.enable_lc = false) :
    ∃ v : Option Bool,
      AllocatedBool.or a b st = .ok
        ({ var := Variable.Witness st.witness_assignment.length,
           enable_lc := st.construct_matrices, value := v },
         { st with
           witness_assignment := st.witness_assignment ++ [v.map boolToF],
           num_constraints := st.num_constraints + 1 }) := by
  rcases a with ⟨av, ae, aval⟩
  have h' : ae = false := h
  subst h'
  exact ⟨_, rfl⟩

theorem and_not_ok_of_enable {F : Type} [CommRing F] (a b : AllocatedBool F)
    (st : ConstraintSystem F) (h : a.enable_lc = true) :
    ∃ v : Option Bool,
      AllocatedBool.and_not a b st = .ok
        ({ var := Variable.Witness st.witness_assignment.length,
           enable_lc := st.construct_matrices, value := v },
         { st with
           witness_assignment := st.witness_assignment ++ [v.map boolToF],
           constraints := st.constraints ++
             [andNotC a.var b.var (Variable.Witness st.witness_assignment.length)],
           num_constraints := st.num_constraints + 1 }) := by
  rcases a with ⟨av, ae, aval⟩
  have h' : ae = true := h
  subst h'
  exact ⟨_, rfl⟩

theorem and_not_ok_of_count {F : Type} [CommRing F] (a b : AllocatedBool F)
    (st : ConstraintSystem F) (h : a.enable_lc = false) :
    ∃ v : Option Bool,
      AllocatedBool.and_not a b st = .ok
        ({ var := Variable.Witness st.witness_assignment.length,
           enable_lc := st.construct_matrices, value := v },
         { st with
           witness_assignment := st.witness_assignment ++ [v.map boolToF],
           num_constraints := st.num_constraints + 1 }) := by
  rcases a with ⟨av, ae, aval⟩
  have h' : ae = false := h
  subst h'
  exact ⟨_, rfl⟩

theorem nor_ok_of_enable {F : Type} [CommRing F] (a b : AllocatedBool F)
    (st : ConstraintSystem F) (h : a.enable_lc = true) :
    ∃ v : Option Bool,
      AllocatedBool.nor a b st = .ok
        ({ var := Variable.Witness st.witness_assignment.length,
           enable_lc := st.construct_matrices, value := v },
         { st with
           witness_assignment := st.witness_assignment ++ [v.map boolToF],
           constraints := st.constraints ++
             [norC a.var b.var (Variable.Witness st.witness_assignment.length)],
           num_constraints := st.num_constraints + 1 }) := by
  rcases a with ⟨av, ae, aval⟩
  have h' : ae = true := h
  subst h'
  exact ⟨_, rfl⟩

theorem nor_ok_of_count {F : Type} [CommRing F] (a b : AllocatedBool F)
    (st : ConstraintSystem F) (h : a.enable_lc = false) :
    ∃ v : Option Bool,
      AllocatedBool.nor a b st = .ok
        ({ var := Variable.Witness st.witness_assignment.length,
           enable_lc := st.construct_matrices, value := v },
         { st with
           witness_assignment := st.witness_assignment ++ [v.map boolToF],
           num_constraints := st.num_constraints + 1 }) := by
  rcases a with ⟨av, ae, aval⟩
  have h' : ae = false := h
  subst h'
  exact ⟨_, rfl⟩

theorem not_ok_of_enable {F : Type} [CommRing F] (a : AllocatedBool F)
    (st : ConstraintSystem F) (h : a.enable_lc = true) :
    AllocatedBool.not a st = .ok
      ({ var := Variable.SymbolicLc st.lc_map.length,
         enable_lc := st.construct_matrices,
         value := a.value.map (fun v => !v) },
       { st with lc_map := st.lc_map ++ [[((1 : F), Variable.One), (-1, a.var)]] }) := by
  rcases a with ⟨av, ae, aval⟩
  have h' : ae = true := h
  subst h'
  rfl

theorem not_ok_of_count {F : Type} [CommRing F] (a : AllocatedBool F)
    (st : ConstraintSystem F) (h : a.enable_lc = false) :
    AllocatedBool.not a st = .ok
      ({ var := Variable.SymbolicLc st.lc_map.length,
         enable_lc := st.construct_matrices,
         value := a.value.map (fun v => !v) },
       { st with lc_map := st.lc_map ++ [[]] }) := by
  rcases a with ⟨av, ae, aval⟩
  have h' : ae = false := h
  subst h'
  rfl

theorem new_variable_witness_ok_true {F : Type} [CommRing F]
    (st : ConstraintSystem F) (f : Except SynthesisError Bool)
    (h : st.construct_matrices = true) :
    new_variable st f AllocationMode.Witness = .ok
      ({ var := Variable.Witness st.witness_assignment.length,
         enable_lc := true, value := f.toOption },
       { st with
         witness_assignment := st.witness_assignment ++ [f.toOption.map boolToF],
         constraints := st.constraints ++
           [booleanityC (Variable.Witness st.witness_assignment.length)],
         num_constraints := st.num_constraints + 1 }) := by
  rcases st with ⟨cm, ia, wa, lm, cs, nc⟩
  have h' : cm = true := h
  subst h'
  rfl

theorem new_variable_witness_ok_false {F : Type} [CommRing F]
    (st : ConstraintSystem F) (f : Except SynthesisError Bool)
    (h : st.construct_matrices = false) :
    new_variable st f AllocationMode.Witness = .ok
      ({ var := Variable.Witness st.witness_assignment.length,
         enable_lc := false, value := f.toOption },
       { st with
         witness_assignment := st.witness_assignment ++ [f.toOption.map boolToF],
         num_constraints := st.num_constraints + 1 }) := by
  rcases st with ⟨cm, ia, wa, lm, cs, nc⟩
  have h' : cm = false := h
  subst h'
  rfl

theorem new_variable_input_ok_true {F : Type} [CommRing F]
    (st : ConstraintSystem F) (f : Except SynthesisError Bool)
    (h : st.construct_matrices = true) :
    new_variable st f AllocationMode.Input = .ok
      ({ var := Variable.Instance st.instance_assignment.length,
         enable_lc := true, value := f.toOption },
       { st with
         instance_assignment := st.instance_assignment ++ [f.toOption.map boolToF],
         constraints := st.constraints ++
           [booleanityC (Variable.Instance st.instance_assignment.length)],
         num_constraints := st.num_constraints + 1 }) := by
  rcases st with ⟨cm, ia, wa, lm, cs, nc⟩
  have h' : cm = true := h
  subst h'
  rfl

theorem new_variable_input_ok_false {F : Type} [CommRing F]
    (st : ConstraintSystem F) (f : Except SynthesisError Bool)
    (h : st.construct_matrices = false) :
    new_variable st f AllocationMode.Input = .ok
      ({ var := Variable.Instance st.instance_assignment.length,
         enable_lc := false, value := f.toOption },
       { st with
         instance_assignment := st.instance_assignment ++ [f.toOption.map boolToF],
         num_constraints := st.num_constraints + 1 }) := by
  rcases st with ⟨cm, ia, wa, lm, cs, nc⟩
  have h' : cm = false := h
  subst h'
  rfl

theorem new_variable_constant_ok {F : Type} [CommRing F]
    (st : ConstraintSystem F) (b : Bool) :
    new_variable st (.ok b) AllocationMode.Constant = .ok
      ({ var := if b then Variable.One else Variable.Zero,
         enable_lc := st.construct_matrices, value := some b }, st) :=
  rfl

theorem new_variable_constant_error {F : Type} [CommRing F]
    (st : ConstraintSystem F) (e : SynthesisError) :
    new_variable st (.error e) AllocationMode.Constant = .error e :=
  rfl

theorem evalVarB_symbolic {F : Type} [CommRing F] (st : ConstraintSystem F)
    (b i : Nat) :
    evalVarB st (b + 1) (Variable.SymbolicLc i) =
      (st.lc_map.get? i).bind (evalLCB st b) :=
  rfl

theorem evalLCB_congr {F : Type} [CommRing F] (st st' : ConstraintSystem F)
    (b c : Nat) (l : LC F)
    (h : ∀ p ∈ l, evalVarB st b p.2 = evalVarB st' c p.2) :
    evalLCB st b l = evalLCB st' c l := by
  induction l with
  | nil => rfl
  | cons p rest ih =>
    simp only [evalLCB, List.foldr_cons]
    have h1 := h p (List.mem_cons_self p rest)
    have h2 : evalLCB st b rest = evalLCB st' c rest :=
      ih fun q hq => h q (List.mem_cons_of_mem p hq)
    simp only [evalLCB] at h2
    rw [h1, h2]

theorem lcMapWf_get {F : Type} (st : ConstraintSystem F)
    (h : lcMapWfB st = true) (i : Nat) (l : LC F)
    (hg : st.lc_map.get? i = some l) : lcBndB i l = true := by
  have hi : i < st.lc_map.length := by
    by_contra hn
    rw [List.get?_eq_none.mpr (by omega)] at hg
    exact absurd hg (by simp)
  simp only [lcMapWfB, List.all_eq_true] at h
  have h2 := h i (List.mem_range.mpr hi)
  rw [hg] at h2
  simpa using h2

theorem lcBndB_mem {F : Type} (n : Nat) (l : LC F) (h : lcBndB n l = true)
    (p : F × Variable) (hp : p ∈ l) : varBndB n p.2 = true := by
  simp only [lcBndB, List.all_eq_true] at h
  exact h p hp

theorem evalVarB_fuel_congr {F : Type} [CommRing F] (st : ConstraintSystem F)
    (hwf : lcMapWfB st = true) :
    ∀ n v, varBndB n v = true → ∀ b c, n ≤ b → n ≤ c →
      evalVarB st b v = evalVarB st c v := by
  intro n
  induction n using Nat.strong_induction_on with
  | _ n ih =>
    intro v hv b c hb hc
    cases v with
    | One => cases b <;> cases c <;> rfl
    | Zero => cases b <;> cases c <;> rfl
    | Instance i => cases b <;> cases c <;> rfl
    | Witness i => cases b <;> cases c <;> rfl
    | SymbolicLc i =>
      simp only [varBndB, decide_eq_true_eq] at hv
      cases b with
      | zero => omega
      | succ b' =>
        cases c with
        | zero => omega
        | succ c' =>
          rw [evalVarB_symbolic, evalVarB_symbolic]
          cases hgl : st.lc_map.get? i with
          | none => rfl
          | some l =>
            show evalLCB st b' l = evalLCB st c' l
            refine evalLCB_congr _ _ _ _ _ fun p hp => ?_
            exact ih i hv p.2
              (lcBndB_mem _ _ (lcMapWf_get st hwf i l hgl) p hp)
              b' c' (by omega) (by omega)

theorem evalVarB_append {F : Type} [CommRing F] (st : ConstraintSystem F)
    (ext : List (LC F)) (hwf : lcMapWfB st = true) :
    ∀ n, n ≤ st.lc_map.length → ∀ v, varBndB n v = true → ∀ b,
      evalVarB { st with lc_map := st.lc_map ++ ext } b v = evalVarB st b v := by
  intro n
  induction n using Nat.strong_induction_on with
  | _ n ih =>
    intro hn v hv b
    cases v with
    | One => cases b <;> rfl
    | Zero => cases b <;> rfl
    | Instance i => cases b <;> rfl
    | Witness i => cases b <;> rfl
    | SymbolicLc i =>
      simp only [varBndB, decide_eq_true_eq] at hv
      cases b with
      | zero => rfl
      | succ b' =>
        rw [evalVarB_symbolic, evalVarB_symbolic]
        have hget : (st.lc_map ++ ext).get? i = st.lc_map.get? i :=
          List.get?_append (by omega)
        show ((st.lc_map ++ ext).get? i).bind _ = _
        rw [hget]
        cases hgl : st.lc_map.get? i with
        | none => rfl
        | some l =>
          show evalLCB { st with lc_map := st.lc_map ++ ext } b' l = evalLCB st b' l
          refine evalLCB_congr _ _ _ _ _ fun p hp => ?_
          exact ih i hv (by omega) p.2
            (lcBndB_mem _ _ (lcMapWf_get st hwf i l hgl) p hp) b'

theorem evalLCtop_extend {F : Type} [CommRing F] (st : ConstraintSystem F)
    (ext : List (LC F)) (hwf : lcMapWfB st = true)
    (hwf2 : lcMapWfB { st with lc_map := st.lc_map ++ ext } = true)
    (l : LC F) (hl : lcBndB st.lc_map.length l = true) :
    evalLCtop { st with lc_map := st.lc_map ++ ext } l = evalLCtop st l := by
  show evalLCB _ (st.lc_map ++ ext).length l = evalLCB st st.lc_map.length l
  refine evalLCB_congr _ _ _ _ _ fun p hp => ?_
  have hv := lcBndB_mem _ _ hl p hp
  have h1 : evalVarB { st with lc_map := st.lc_map ++ ext }
      (st.lc_map ++ ext).length p.2 =
      evalVarB { st with lc_map := st.lc_map ++ ext } st.lc_map.length p.2 :=
    evalVarB_fuel_congr _ hwf2 st.lc_map.length p.2 hv _ _
      (by simp) (le_refl _)
  rw [h1]
  exact evalVarB_append st ext hwf st.lc_map.length (le_refl _) p.2 hv _

theorem list_all_congr {α : Type} (l : List α) (p q : α → Bool)
    (h : ∀ x ∈ l, p x = q x) : l.all p = l.all q := by
  induction l with
  | nil => rfl
  | cons a t ih =>
    simp only [List.all_cons]
    rw [h a (List.mem_cons_self a t), ih fun x hx => h x (List.mem_cons_of_mem a hx)]

theorem is_satisfied_extend {F : Type} [CommRing F] [DecidableEq F]
    (st : ConstraintSystem F) (ext : List (LC F))
    (hwf : lcMapWfB st = true)
    (hwf2 : lcMapWfB { st with lc_map := st.lc_map ++ ext } = true)
    (hc : constraintsBndB st = true) :
    is_satisfied { st with lc_map := st.lc_map ++ ext } = is_satisfied st := by
  have hcs : ({ st with lc_map := st.lc_map ++ ext } : ConstraintSystem F).constraints
      = st.constraints := rfl
  simp only [is_satisfied, hcs]
  refine list_all_congr _ _ _ fun t ht => ?_
  simp only [constraintsBndB, List.all_eq_true] at hc
  have hct := hc t ht
  rw [Bool.and_eq_true, Bool.and_eq_true] at hct
  show constraintHolds _ t = constraintHolds st t
  unfold constraintHolds
  rw [evalLCtop_extend st ext hwf hwf2 t.1 hct.1.1,
      evalLCtop_extend st ext hwf hwf2 t.2.1 hct.1.2,
      evalLCtop_extend st ext hwf hwf2 t.2.2 hct.2]

theorem lcEquiv_refl {F : Type} [CommRing F] [DecidableEq F] (l : LC F) :
    lcEquiv l l = true := by
  simp [lcEquiv, List.all_eq_true]

theorem isBooleanityOn_booleanityC {F : Type} [CommRing F] [DecidableEq F]
    (v : Variable) : isBooleanityOn (booleanityC (F := F) v) v = true := by
  simp [isBooleanityOn, booleanityC, lcEquiv_refl]

theorem not_ok {F : Type} [CommRing F] (a : AllocatedBool F)
    (st : ConstraintSystem F) :
    AllocatedBool.not a st = .ok
      ({ var := Variable.SymbolicLc st.lc_map.length,
         enable_lc := st.construct_matrices,
         value := a.value.map (fun v => !v) },
       { st with lc_map := st.lc_map ++
           [if a.enable_lc then [((1 : F), Variable.One), (-1, a.var)] else []] }) :=
  rfl

theorem new_variable_nonconstant_total {F : Type} [CommRing F]
    (st : ConstraintSystem F) (f : Except SynthesisError Bool)
    (m : AllocationMode)
    (hm : m = AllocationMode.Input ∨ m = AllocationMode.Witness) :
    ∃ g st', new_variable st f m = .ok (g, st') ∧
      st'.num_constraints = st.num_constraints + 1 := by
  rcases hm with hm | hm <;> subst hm <;> cases hc : st.construct_matrices
  · exact ⟨_, _, new_variable_input_ok_false st f hc, rfl⟩
  · exact ⟨_, _, new_variable_input_ok_true st f hc, rfl⟩
  · exact ⟨_, _, new_variable_witness_ok_false st f hc, rfl⟩
  · exact ⟨_, _, new_variable_witness_ok_true st f hc, rfl⟩

theorem xor_total {F : Type} [CommRing F] (a b : AllocatedBool F)
    (st : ConstraintSystem F) :
    ∃ g st', AllocatedBool.xor a b st = .ok (g, st') ∧
      st'.num_constraints = st.num_constraints + 1 := by
  cases ha : a.enable_lc
  · obtain ⟨v, he⟩ := xor_ok_of_count a b st ha
    exact ⟨_, _, he, rfl⟩
  · obtain ⟨v, he⟩ := xor_ok_of_enable a b st ha
    exact ⟨_, _, he, rfl⟩

theorem and_total {F : Type} [CommRing F] (a b : AllocatedBool F)
    (st : ConstraintSystem F) :
    ∃ g st', AllocatedBool.and a b st = .ok (g, st') ∧
      st'.num_constraints = st.num_constraints + 1 := by
  cases ha : a.enable_lc
  · obtain ⟨v, he⟩ := and_ok_of_count a b st ha
    exact ⟨_, _, he, rfl⟩
  · obtain ⟨v, he⟩ := and_ok_of_enable a b st ha
    exact ⟨_, _, he, rfl⟩

theorem or_total {F : Type} [CommRing F] (a b : AllocatedBool F)
    (st : ConstraintSystem F) :
    ∃ g st', AllocatedBool.or a b st = .ok (g, st') ∧
      st'.num_constraints = st.num_constraints + 1 := by
  cases ha : a.enable_lc
  · obtain ⟨v, he⟩ := or_ok_of_count a b st ha
    exact ⟨_, _, he, rfl⟩
  · obtain ⟨v, he⟩ := or_ok_of_enable a b st ha
    exact ⟨_, _, he, rfl⟩

theorem and_not_total {F : Type} [CommRing F] (a b : AllocatedBool F)
    (st : ConstraintSystem F) :
    ∃ g st', AllocatedBool.and_not a b st = .ok (g, st') ∧
      st'.num_constraints = st.num_constraints + 1 := by
  cases ha : a.enable_lc
  · obtain ⟨v, he⟩ := and_not_ok_of_count a b st ha
    exact ⟨_, _, he, rfl⟩
  · obtain ⟨v, he⟩ := and_not_ok_of_enable a b st ha
    exact ⟨_, _, he, rfl⟩

theorem nor_total {F : Type} [CommRing F] (a b : AllocatedBool F)
    (st : ConstraintSystem F) :
    ∃ g st', AllocatedBool.nor a b st = .ok (g, st') ∧
      st'.num_constraints = st.num_constraints + 1 := by
  cases ha : a.enable_lc
  · obtain ⟨v, he⟩ := nor_ok_of_count a b st ha
    exact ⟨_, _, he, rfl⟩
  · obtain ⟨v, he⟩ := nor_ok_of_enable a b st ha
    exact ⟨_, _, he, rfl⟩

theorem binApp_count_sim {F : Type} [CommRing F] (r1 r2 : RunState F)
    (op : AllocatedBool F → AllocatedBool F → ConstraintSystem F →
      Except SynthesisError (AllocatedBool F × ConstraintSystem F))
    (hop : ∀ a b st, ∃ g st', op a b st = .ok (g, st') ∧
      st'.num_constraints = st.num_constraints + 1)
    (hlen : r1.env.length = r2.env.length)
    (hnum : r1.st.num_constraints = r2.st.num_constraints) (i j : Nat) :
    (binApp r1 op i j).env.length = (binApp r2 op i j).env.length ∧
    (binApp r1 op i j).st.num_constraints =
      (binApp r2 op i j).st.num_constraints := by
  cases hg1 : r1.env.get? i <;> cases hg2 : r2.env.get? i
  · simp only [binApp, hg1, hg2]
    exact ⟨hlen, hnum⟩
  · have ha := List.get?_eq_none.mp hg1
    obtain ⟨hb, _⟩ := List.get?_eq_some.mp hg2
    omega
  · have ha := List.get?_eq_none.mp hg2
    obtain ⟨hb, _⟩ := List.get?_eq_some.mp hg1
    omega
  · cases hj1 : r1.env.get? j <;> cases hj2 : r2.env.get? j
    · simp only [binApp, hg1, hg2, hj1, hj2]
      exact ⟨hlen, hnum⟩
    · have ha := List.get?_eq_none.mp hj1
      obtain ⟨hb, _⟩ := List.get?_eq_some.mp hj2
      omega
    · have ha := List.get?_eq_none.mp hj2
      obtain ⟨hb, _⟩ := List.get?_eq_some.mp hj1
      omega
    · rename_i a1 a2 b1 b2
      obtain ⟨g1, st1, he1, hn1⟩ := hop a1 b1 r1.st
      obtain ⟨g2, st2, he2, hn2⟩ := hop a2 b2 r2.st
      simp only [binApp, hg1, hg2, hj1, hj2, he1, he2, pushResult]
      constructor
      · simp [hlen]
      · omega

theorem step_count_sim {F : Type} [CommRing F] (r1 r2 : RunState F)
    (hlen : r1.env.length = r2.env.length)
    (hnum : r1.st.num_constraints = r2.st.num_constraints) (o : Op) :
    (step r1 o).env.length = (step r2 o).env.length ∧
    (step r1 o).st.num_constraints = (step r2 o).st.num_constraints := by
  cases o with
  | allocC b =>
    simp only [step, new_variable_constant_ok, pushResult]
    exact ⟨by simp [hlen], hnum⟩
  | allocI v =>
    obtain ⟨g1, st1, he1, hn1⟩ :=
      new_variable_nonconstant_total r1.st (toExc v) _ (Or.inl rfl)
    obtain ⟨g2, st2, he2, hn2⟩ :=
      new_variable_nonconstant_total r2.st (toExc v) _ (Or.inl rfl)
    simp only [step, he1, he2, pushResult]
    exact ⟨by simp [hlen], by omega⟩
  | allocW v =>
    obtain ⟨g1, st1, he1, hn1⟩ :=
      new_variable_nonconstant_total r1.st (toExc v) _ (Or.inr rfl)
    obtain ⟨g2, st2, he2, hn2⟩ :=
      new_variable_nonconstant_total r2.st (toExc v) _ (Or.inr rfl)
    simp only [step, he1, he2, pushResult]
    exact ⟨by simp [hlen], by omega⟩
  | opNot i =>
    cases hg1 : r1.env.get? i <;> cases hg2 : r2.env.get? i
    · simp only [step, hg1, hg2]
      exact ⟨hlen, hnum⟩
    · have ha := List.get?_eq_none.mp hg1
      obtain ⟨hb, _⟩ := List.get?_eq_some.mp hg2
      omega
    · have ha := List.get?_eq_none.mp hg2
      obtain ⟨hb, _⟩ := List.get?_eq_some.mp hg1
      omega
    · simp only [step, hg1, hg2, not_ok, pushResult]
      exact ⟨by simp [hlen], hnum⟩
  | opXor i j =>
    exact binApp_count_sim r1 r2 _ xor_total hlen hnum i j
  | opAnd i j =>
    exact binApp_count_sim r1 r2 _ and_total hlen hnum i j
  | opOr i j =>
    exact binApp_count_sim r1 r2 _ or_total hlen hnum i j
  | opAndNot i j =>
    exact binApp_count_sim r1 r2 _ and_not_total hlen hnum i j
  | opNor i j =>
    exact binApp_count_sim r1 r2 _ nor_total hlen hnum i j

theorem run_count_sim {F : Type} [CommRing F] :
    ∀ (ops : List Op) (r1 r2 : RunState F),
      r1.env.length = r2.env.length →
      r1.st.num_constraints = r2.st.num_constraints →
      (run ops r1).env.length = (run ops r2).env.length ∧
      (run ops r1).st.num_constraints = (run ops r2).st.num_constraints := by
  intro ops
  induction ops with
  | nil => intro r1 r2 h1 h2; exact ⟨h1, h2⟩
  | cons o rest ih =>
    intro r1 r2 h1 h2
    have h := step_count_sim r1 r2 h1 h2 o
    simpa [run, List.foldl_cons] using ih (step r1 o) (step r2 o) h.1 h.2

theorem lcMapWfB_extend2 {F : Type} (st : ConstraintSystem F) (l1 l2 : LC F)
    (hwf : lcMapWfB st = true)
    (h1 : lcBndB st.lc_map.length l1 = true)
    (h2 : lcBndB (st.lc_map.length + 1) l2 = true) :
    lcMapWfB { st with lc_map := st.lc_map ++ [l1, l2] } = true := by
  simp only [lcMapWfB, List.all_eq_true, List.mem_range] at hwf ⊢
  intro i hi
  simp only [List.length_append, List.length_cons, List.length_nil] at hi
  rcases Nat.lt_trichotomy i st.lc_map.length with hlt | heq | hgt
  · rw [List.get?_append hlt]
    exact hwf i hlt
  · subst heq
    rw [List.get?_append_right (le_refl _), Nat.sub_self]
    simpa using h1
  · have heq2 : i = st.lc_map.length + 1 := by omega
    subst heq2
    rw [List.get?_append_right (by omega)]
    have : st.lc_map.length + 1 - st.lc_map.length = 1 := by omega
    rw [this]
    simpa using h2

/-- C1: for every pair of operand values in {false, true}, allocating the
operands as witnesses with those values on the same fresh constraint system
and applying each logic operator yields a result whose value equals the
corresponding boolean function (AND, OR, XOR, AND_NOT, NOR, NOT), and the
constraint system remains satisfiable after the operation. -/
theorem c1_operator_values_and_satisfiability :
    ∀ x y : Bool,
      boolOpCheck AllocatedBool.xor Bool.xor x y = true ∧
      boolOpCheck AllocatedBool.and (fun p q => p && q) x y = true ∧
      boolOpCheck AllocatedBool.or (fun p q => p || q) x y = true ∧
      boolOpCheck AllocatedBool.and_not (fun p q => p && !q) x y = true ∧
      boolOpCheck AllocatedBool.nor (fun p q => !p && !q) x y = true ∧
      notOpCheck x = true := by
  decide

/-- C7: Constant-mode allocation invokes the provider eagerly, so a provider
failure fails the allocation itself; on success the variable is the reserved
One handle for `true` and the Zero handle for `false`, the value is cached,
and the constraint system is returned unchanged (zero constraints added),
regardless of the value. -/
theorem c7_constant_mode {F : Type} [CommRing F] :
    (∀ (st : ConstraintSystem F) (e : SynthesisError),
      new_variable st (.error e) AllocationMode.Constant = .error e) ∧
    (∀ (st : ConstraintSystem F) (b : Bool),
      new_variable st (.ok b) AllocationMode.Constant = .ok
        ({ var := if b then Variable.One else Variable.Zero,
           enable_lc := st.construct_matrices, value := some b }, st)) :=
  ⟨fun _ _ => rfl, fun _ _ => rfl⟩

/-- C3 as stated is false on the code: the XOR result, the result of
`new_witness_without_booleanity_check`, and an instance built by the bare
constructor `new` are all non-Constant-mode instances, yet the constraint
system holds no constraint of the form `(1 - v) * v = 0` on their variables;
in counting mode even `new_variable` records no such constraint (only the
counter is bumped). -/
theorem c3_counterexample :
    runX.1.var = Variable.Witness 2 ∧
    hasBooleanity runX.2 runX.1.var = false ∧
    hasBooleanity runN.2 runN.1.var = false ∧
    hasBooleanity initCS
      (AllocatedBool.new (some true) (Variable.Witness 5) initCS).var = false ∧
    hasBooleanity runCnt.2 runCnt.1.var = false := by
  decide

/-- C3 amended: the booleanity invariant holds exactly for the instances
produced by `new_variable` with mode PublicInput or PrivateWitness on a
materializing constraint system — after such an allocation the system holds a
constraint of the form `(1 - v) * v = 0` on the fresh variable.  Instances
from `new`, from `new_witness_without_booleanity_check`, from logic operators,
and allocations in counting mode carry no such constraint. -/
theorem c3_amended_booleanity {F : Type} [CommRing F] [DecidableEq F]
    (st : ConstraintSystem F) (f : Except SynthesisError Bool)
    (m : AllocationMode)
    (hm : m = AllocationMode.Input ∨ m = AllocationMode.Witness)
    (hcm : st.construct_matrices = true) (r : AllocatedBool F)
    (st' : ConstraintSystem F) (h : new_variable st f m = .ok (r, st')) :
    hasBooleanity st' r.var = true := by
  rcases hm with hm | hm <;> subst hm
  · rw [new_variable_input_ok_true st f hcm] at h
    simp only [Except.ok.injEq, Prod.mk.injEq] at h
    obtain ⟨h1, h2⟩ := h
    subst h1
    subst h2
    simp [hasBooleanity, List.any_append, isBooleanityOn_booleanityC]
  · rw [new_variable_witness_ok_true st f hcm] at h
    simp only [Except.ok.injEq, Prod.mk.injEq] at h
    obtain ⟨h1, h2⟩ := h
    subst h1
    subst h2
    simp [hasBooleanity, List.any_append, isBooleanityOn_booleanityC]

theorem c3_amended_booleanity_witness :
    hasBooleanity runA.2 runA.1.var = true :=
  c3_amended_booleanity initCS (.ok true) AllocationMode.Witness
    (Or.inr rfl) rfl runA.1 runA.2 rfl

/-- C4: allocation with mode PublicInput or PrivateWitness adds exactly one
constraint to the count; each binary logic operator adds exactly one more;
NOT adds zero constraints, allocates no witness or input variable, adds no
constraint data, and (when the operand snapshot is materializing) binds its
result variable to the affine linear combination `1 - a.variable` via
linear-combination allocation. -/
theorem c4_constraint_counts {F : Type} [CommRing F] :
    (∀ (st : ConstraintSystem F) (f : Except SynthesisError Bool)
        (m : AllocationMode),
      (m = AllocationMode.Input ∨ m = AllocationMode.Witness) →
      ∀ r st', new_variable st f m = .ok (r, st') →
        st'.num_constraints = st.num_constraints + 1) ∧
    (∀ (st : ConstraintSystem F) (a b : AllocatedBool F) r st',
      AllocatedBool.xor a b st = .ok (r, st') →
        st'.num_constraints = st.num_constraints + 1) ∧
    (∀ (st : ConstraintSystem F) (a b : AllocatedBool F) r st',
      AllocatedBool.and a b st = .ok (r, st') →
        st'.num_constraints = st.num_constraints + 1) ∧
    (∀ (st : ConstraintSystem F) (a b : AllocatedBool F) r st',
      AllocatedBool.or a b st = .ok (r, st') →
        st'.num_constraints = st.num_constraints + 1) ∧
    (∀ (st : ConstraintSystem F) (a b : AllocatedBool F) r st',
      AllocatedBool.and_not a b st = .ok (r, st') →
        st'.num_constraints = st.num_constraints + 1) ∧
    (∀ (st : ConstraintSystem F) (a b : AllocatedBool F) r st',
      AllocatedBool.nor a b st = .ok (r, st') →
        st'.num_constraints = st.num_constraints + 1) ∧
    (∀ (st : ConstraintSystem F) (a : AllocatedBool F) r st',
      AllocatedBool.not a st = .ok (r, st') →
        st'.num_constraints = st.num_constraints ∧
        st'.witness_assignment = st.witness_assignment ∧
        st'.instance_assignment = st.instance_assignment ∧
        st'.constraints = st.constraints ∧
        (a.enable_lc = true →
          r.var = Variable.SymbolicLc st.lc_map.length ∧
          st'.lc_map = st.lc_map ++ [[((1 : F), Variable.One), (-1, a.var)]])) := by
  refine ⟨?_, ?_, ?_, ?_, ?_, ?_, ?_⟩
  · intro st f m hm r st' h
    obtain ⟨g, s2, he, hn⟩ := new_variable_nonconstant_total st f m hm
    rw [he] at h
    simp only [Except.ok.injEq, Prod.mk.injEq] at h
    rw [← h.2]
    exact hn
  · intro st a b r st' h
    obtain ⟨g, s2, he, hn⟩ := xor_total a b st
    rw [he] at h
    simp only [Except.ok.injEq, Prod.mk.injEq] at h
    rw [← h.2]
    exact hn
  · intro st a b r st' h
    obtain ⟨g, s2, he, hn⟩ := and_total a b st
    rw [he] at h
    simp only [Except.ok.injEq, Prod.mk.injEq] at h
    rw [← h.2]
    exact hn
  · intro st a b r st' h
    obtain ⟨g, s2, he, hn⟩ := or_total a b st
    rw [he] at h
    simp only [Except.ok.injEq, Prod.mk.injEq] at h
    rw [← h.2]
    exact hn
  · intro st a b r st' h
    obtain ⟨g, s2, he, hn⟩ := and_not_total a b st
    rw [he] at h
    simp only [Except.ok.injEq, Prod.mk.injEq] at h
    rw [← h.2]
    exact hn
  · intro st a b r st' h
    obtain ⟨g, s2, he, hn⟩ := nor_total a b st
    rw [he] at h
    simp only [Except.ok.injEq, Prod.mk.injEq] at h
    rw [← h.2]
    exact hn
  · intro st a r st' h
    rw [not_ok] at h
    simp only [Except.ok.injEq, Prod.mk.injEq] at h
    obtain ⟨h1, h2⟩ := h
    subst h1
    subst h2
    refine ⟨rfl, rfl, rfl, rfl, fun ha => ?_⟩
    rw [ha]
    exact ⟨rfl, rfl⟩

theorem c4_constraint_counts_witness :
    runA.2.num_constraints = initCS.num_constraints + 1 ∧
    runX.2.num_constraints = runB.2.num_constraints + 1 ∧
    runAnd.2.num_constraints = runB.2.num_constraints + 1 ∧
    runNot1.2.num_constraints = runA.2.num_constraints ∧
    runNot1.1.var = Variable.SymbolicLc runA.2.lc_map.length := by
  have h1 := c4_constraint_counts.1 initCS (.ok true) AllocationMode.Witness
    (Or.inr rfl) runA.1 runA.2 rfl
  have h2 := c4_constraint_counts.2.1 runB.2 runA.1 runB.1 runX.1 runX.2 rfl
  have h3 := c4_constraint_counts.2.2.1 runB.2 runA.1 runB.1 runAnd.1 runAnd.2 rfl
  have h4 := c4_constraint_counts.2.2.2.2.2.2 runA.2 runA.1 runNot1.1 runNot1.2 rfl
  exact ⟨h1, h2, h3, h4.1, (h4.2.2.2.2 rfl).1⟩

/-- C2: with a materializing left-operand snapshot, each binary operator
appends exactly one multiplicative constraint, and its three linear
combinations evaluate, under every valuation of the handles, to exactly the
spec table's polynomials over the operand variables and the result variable:
XOR enforces `(2a)·b = a + b − c`, AND enforces `a·b = c`, OR enforces
`(1−a)·(1−b) = 1−c`, AND_NOT enforces `a·(1−b) = c`, NOR enforces
`(1−a)·(1−b) = c`. -/
theorem c2_operator_constraint_shapes {F : Type} [CommRing F]
    (st : ConstraintSystem F) (a b : AllocatedBool F)
    (h : a.enable_lc = true) :
    (∀ r st', AllocatedBool.xor a b st = .ok (r, st') →
      st'.constraints = st.constraints ++ [xorC a.var b.var r.var] ∧
      ∀ rho : Variable → F,
        evalLCAt rho (xorC a.var b.var r.var).1 = 2 * valAt rho a.var ∧
        evalLCAt rho (xorC a.var b.var r.var).2.1 = valAt rho b.var ∧
        evalLCAt rho (xorC a.var b.var r.var).2.2 =
          valAt rho a.var + valAt rho b.var - valAt rho r.var) ∧
    (∀ r st', AllocatedBool.and a b st = .ok (r, st') →
      st'.constraints = st.constraints ++ [andC a.var b.var r.var] ∧
      ∀ rho : Variable → F,
        evalLCAt rho (andC a.var b.var r.var).1 = valAt rho a.var ∧
        evalLCAt rho (andC a.var b.var r.var).2.1 = valAt rho b.var ∧
        evalLCAt rho (andC a.var b.var r.var).2.2 = valAt rho r.var) ∧
    (∀ r st', AllocatedBool.or a b st = .ok (r, st') →
      st'.constraints = st.constraints ++ [orC a.var b.var r.var] ∧
      ∀ rho : Variable → F,
        evalLCAt rho (orC a.var b.var r.var).1 = 1 - valAt rho a.var ∧
        evalLCAt rho (orC a.var b.var r.var).2.1 = 1 - valAt rho b.var ∧
        evalLCAt rho (orC a.var b.var r.var).2.2 = 1 - valAt rho r.var) ∧
    (∀ r st', AllocatedBool.and_not a b st = .ok (r, st') →
      st'.constraints = st.constraints ++ [andNotC a.var b.var r.var] ∧
      ∀ rho : Variable → F,
        evalLCAt rho (andNotC a.var b.var r.var).1 = valAt rho a.var ∧
        evalLCAt rho (andNotC a.var b.var r.var).2.1 = 1 - valAt rho b.var ∧
        evalLCAt rho (andNotC a.var b.var r.var).2.2 = valAt rho r.var) ∧
    (∀ r st', AllocatedBool.nor a b st = .ok (r, st') →
      st'.constraints = st.constraints ++ [norC a.var b.var r.var] ∧
      ∀ rho : Variable → F,
        evalLCAt rho (norC a.var b.var r.var).1 = 1 - valAt rho a.var ∧
        evalLCAt rho (norC a.var b.var r.var).2.1 = 1 - valAt rho b.var ∧
        evalLCAt rho (norC a.var b.var r.var).2.2 = valAt rho r.var) := by
  refine ⟨?_, ?_, ?_, ?_, ?_⟩
  · intro r st' hx
    obtain ⟨v, he⟩ := xor_ok_of_enable a b st h
    rw [he] at hx
    simp only [Except.ok.injEq, Prod.mk.injEq] at hx
    obtain ⟨h1, h2⟩ := hx
    subst h1
    subst h2
    refine ⟨rfl, fun rho => ?_⟩
    refine ⟨?_, ?_, ?_⟩ <;> simp [evalLCAt, xorC, valAt] <;> ring
  · intro r st' hx
    obtain ⟨v, he⟩ := and_ok_of_enable a b st h
    rw [he] at hx
    simp only [Except.ok.injEq, Prod.mk.injEq] at hx
    obtain ⟨h1, h2⟩ := hx
    subst h1
    subst h2
    refine ⟨rfl, fun rho => ?_⟩
    refine ⟨?_, ?_, ?_⟩ <;> simp [evalLCAt, andC, valAt]
  · intro r st' hx
    obtain ⟨v, he⟩ := or_ok_of_enable a b st h
    rw [he] at hx
    simp only [Except.ok.injEq, Prod.mk.injEq] at hx
    obtain ⟨h1, h2⟩ := hx
    subst h1
    subst h2
    refine ⟨rfl, fun rho => ?_⟩
    refine ⟨?_, ?_, ?_⟩ <;> simp [evalLCAt, orC, valAt] <;> ring
  · intro r st' hx
    obtain ⟨v, he⟩ := and_not_ok_of_enable a b st h
    rw [he] at hx
    simp only [Except.ok.injEq, Prod.mk.injEq] at hx
    obtain ⟨h1, h2⟩ := hx
    subst h1
    subst h2
    refine ⟨rfl, fun rho => ?_⟩
    refine ⟨?_, ?_, ?_⟩ <;> simp [evalLCAt, andNotC, valAt] <;> ring
  · intro r st' hx
    obtain ⟨v, he⟩ := nor_ok_of_enable a b st h
    rw [he] at hx
    simp only [Except.ok.injEq, Prod.mk.injEq] at hx
    obtain ⟨h1, h2⟩ := hx
    subst h1
    subst h2
    refine ⟨rfl, fun rho => ?_⟩
    refine ⟨?_, ?_, ?_⟩ <;> simp [evalLCAt, norC, valAt] <;> ring

theorem c2_operator_constraint_shapes_witness :
    runX.2.constraints =
      runB.2.constraints ++ [xorC runA.1.var runB.1.var runX.1.var] ∧
    runOr.2.constraints =
      runB.2.constraints ++ [orC runA.1.var runB.1.var runOr.1.var] :=
  ⟨((c2_operator_constraint_shapes runB.2 runA.1 runB.1 rfl).1
      runX.1 runX.2 rfl).1,
   ((c2_operator_constraint_shapes runB.2 runA.1 runB.1 rfl).2.2.1
      runOr.1 runOr.2 rfl).1⟩

/-- C6: a failing value provider does not abort non-Constant allocation, and
a missing operand value does not abort a binary operator: construction
succeeds, the booleanity or operator constraint is still recorded from the
symbolic handles (in materializing mode), the result's cached value is
absent, and reading it fails with AssignmentMissing. -/
theorem c6_missing_values {F : Type} [CommRing F] :
    (∀ (st : ConstraintSystem F) (e : SynthesisError) (m : AllocationMode),
      (m = AllocationMode.Input ∨ m = AllocationMode.Witness) →
      ∃ r st', new_variable st (.error e) m = .ok (r, st') ∧
        r.value = none ∧
        r.value? = .error SynthesisError.AssignmentMissing ∧
        st'.num_constraints = st.num_constraints + 1 ∧
        (st.construct_matrices = true →
          st'.constraints = st.constraints ++ [booleanityC r.var])) ∧
    (∀ (st : ConstraintSystem F) (a b : AllocatedBool F),
      a.value = none ∨ b.value = none →
      ∃ r st', AllocatedBool.xor a b st = .ok (r, st') ∧
        r.value = none ∧
        r.value? = .error SynthesisError.AssignmentMissing ∧
        (a.enable_lc = true →
          st'.constraints = st.constraints ++ [xorC a.var b.var r.var])) ∧
    (∀ (st : ConstraintSystem F) (a b : AllocatedBool F),
      a.value = none ∨ b.value = none →
      ∃ r st', AllocatedBool.and a b st = .ok (r, st') ∧
        r.value = none ∧
        r.value? = .error SynthesisError.AssignmentMissing ∧
        (a.enable_lc = true →
          st'.constraints = st.constraints ++ [andC a.var b.var r.var])) ∧
    (∀ (st : ConstraintSystem F) (a b : AllocatedBool F),
      a.value = none ∨ b.value = none →
      ∃ r st', AllocatedBool.or a b st = .ok (r, st') ∧
        r.value = none ∧
        r.value? = .error SynthesisError.AssignmentMissing ∧
        (a.enable_lc = true →
          st'.constraints = st.constraints ++ [orC a.var b.var r.var])) ∧
    (∀ (st : ConstraintSystem F) (a b : AllocatedBool F),
      a.value = none ∨ b.value = none →
      ∃ r st', AllocatedBool.and_not a b st = .ok (r, st') ∧
        r.value = none ∧
        r.value? = .error SynthesisError.AssignmentMissing ∧
        (a.enable_lc = true →
          st'.constraints = st.constraints ++ [andNotC a.var b.var r.var])) ∧
    (∀ (st : ConstraintSystem F) (a b : AllocatedBool F),
      a.value = none ∨ b.value = none →
      ∃ r st', AllocatedBool.nor a b st = .ok (r, st') ∧
        r.value = none ∧
        r.value? = .error SynthesisError.AssignmentMissing ∧
        (a.enable_lc = true →
          st'.constraints = st.constraints ++ [norC a.var b.var r.var])) := by
  refine ⟨?_, ?_, ?_, ?_, ?_, ?_⟩
  · intro st e m hm
    rcases hm with hm | hm <;> subst hm <;>
      rcases st with ⟨cm, ia, wa, lm, cs, nc⟩ <;> cases cm
    · exact ⟨_, _, rfl, rfl, rfl, rfl, fun hcm => absurd hcm (by simp)⟩
    · exact ⟨_, _, rfl, rfl, rfl, rfl, fun _ => rfl⟩
    · exact ⟨_, _, rfl, rfl, rfl, rfl, fun hcm => absurd hcm (by simp)⟩
    · exact ⟨_, _, rfl, rfl, rfl, rfl, fun _ => rfl⟩
  all_goals (
    intro st a b h
    rcases a with ⟨av, ae, aval⟩
    rcases b with ⟨bv, be, bval⟩
    rcases h with h | h
    · have h' : aval = none := h
      subst h'
      cases ae
      · exact ⟨_, _, rfl, rfl, rfl, fun hcm => absurd hcm (by simp)⟩
      · exact ⟨_, _, rfl, rfl, rfl, fun _ => rfl⟩
    · have h' : bval = none := h
      subst h'
      cases ae <;> cases aval
      · exact ⟨_, _, rfl, rfl, rfl, fun hcm => absurd hcm (by simp)⟩
      · exact ⟨_, _, rfl, rfl, rfl, fun hcm => absurd hcm (by simp)⟩
      · exact ⟨_, _, rfl, rfl, rfl, fun _ => rfl⟩
      · exact ⟨_, _, rfl, rfl, rfl, fun _ => rfl⟩)

theorem c6_missing_values_witness :
    runFail.1.value = none ∧
    runFail.1.value? = .error SynthesisError.AssignmentMissing ∧
    runFail.2.num_constraints = runB.2.num_constraints + 1 ∧
    runFailX.1.value = none ∧
    runFailX.1.value? = .error SynthesisError.AssignmentMissing := by
  obtain ⟨r, st', he, hv, hq, hn, _⟩ :=
    (c6_missing_values (F := ℤ)).1 runB.2 SynthesisError.AssignmentMissing
      AllocationMode.Witness (Or.inr rfl)
  have hre : runFail = (r, st') := by
    show exOk (new_variable runB.2 (.error SynthesisError.AssignmentMissing)
      AllocationMode.Witness) = (r, st')
    rw [he]
    rfl
  obtain ⟨r2, st2, he2, hv2, hq2, _⟩ :=
    (c6_missing_values (F := ℤ)).2.1 runFail.2 runFail.1 runB.1
      (Or.inl (by rw [hre]; exact hv))
  have hre2 : runFailX = (r2, st2) := by
    show exOk (AllocatedBool.xor runFail.1 runB.1 runFail.2) = (r2, st2)
    rw [he2]
    rfl
  refine ⟨?_, ?_, ?_, ?_, ?_⟩
  · rw [hre]; exact hv
  · rw [hre]; exact hq
  · rw [hre]; exact hn
  · rw [hre2]; exact hv2
  · rw [hre2]; exact hq2

/-- C10: in every binary logic operator, the choice between enforcing the
real constraint and merely bumping the counter follows the `enable_lc` flag
snapshotted in the left operand (`self`) — the constraint system's own current
mode flag and the right operand's flag are quantified freely and never
consulted — while the result's `enable_lc` flag is re-read from the constraint
system at result-construction time. -/
theorem c10_branch_from_left_snapshot {F : Type} [CommRing F] :
    (∀ (st : ConstraintSystem F) (a b : AllocatedBool F) r st',
      AllocatedBool.xor a b st = .ok (r, st') →
        r.enable_lc = st.construct_matrices ∧
        (a.enable_lc = true →
          st'.constraints = st.constraints ++ [xorC a.var b.var r.var] ∧
          st'.num_constraints = st.num_constraints + 1) ∧
        (a.enable_lc = false →
          st'.constraints = st.constraints ∧
          st'.num_constraints = st.num_constraints + 1)) ∧
    (∀ (st : ConstraintSystem F) (a b : AllocatedBool F) r st',
      AllocatedBool.and a b st = .ok (r, st') →
        r.enable_lc = st.construct_matrices ∧
        (a.enable_lc = true →
          st'.constraints = st.constraints ++ [andC a.var b.var r.var] ∧
          st'.num_constraints = st.num_constraints + 1) ∧
        (a.enable_lc = false →
          st'.constraints = st.constraints ∧
          st'.num_constraints = st.num_constraints + 1)) ∧
    (∀ (st : ConstraintSystem F) (a b : AllocatedBool F) r st',
      AllocatedBool.or a b st = .ok (r, st') →
        r.enable_lc = st.construct_matrices ∧
        (a.enable_lc = true →
          st'.constraints = st.constraints ++ [orC a.var b.var r.var] ∧
          st'.num_constraints = st.num_constraints + 1) ∧
        (a.enable_lc = false →
          st'.constraints = st.constraints ∧
          st'.num_constraints = st.num_constraints + 1)) ∧
    (∀ (st : ConstraintSystem F) (a b : AllocatedBool F) r st',
      AllocatedBool.and_not a b st = .ok (r, st') →
        r.enable_lc = st.construct_matrices ∧
        (a.enable_lc = true →
          st'.constraints = st.constraints ++ [andNotC a.var b.var r.var] ∧
          st'.num_constraints = st.num_constraints + 1) ∧
        (a.enable_lc = false →
          st'.constraints = st.constraints ∧
          st'.num_constraints = st.num_constraints + 1)) ∧
    (∀ (st : ConstraintSystem F) (a b : AllocatedBool F) r st',
      AllocatedBool.nor a b st = .ok (r, st') →
        r.enable_lc = st.construct_matrices ∧
        (a.enable_lc = true →
          st'.constraints = st.constraints ++ [norC a.var b.var r.var] ∧
          st'.num_constraints = st.num_constraints + 1) ∧
        (a.enable_lc = false →
          st'.constraints = st.constraints ∧
          st'.num_constraints = st.num_constraints + 1)) := by
  refine ⟨?_, ?_, ?_, ?_, ?_⟩
  · intro st a b r st' h
    cases ha : a.enable_lc
    · obtain ⟨v, he⟩ := xor_ok_of_count a b st ha
      rw [he] at h
      simp only [Except.ok.injEq, Prod.mk.injEq] at h
      obtain ⟨h1, h2⟩ := h
      subst h1
      subst h2
      exact ⟨rfl, fun hc => absurd hc (by simp), fun _ => ⟨rfl, rfl⟩⟩
    · obtain ⟨v, he⟩ := xor_ok_of_enable a b st ha
      rw [he] at h
      simp only [Except.ok.injEq, Prod.mk.injEq] at h
      obtain ⟨h1, h2⟩ := h
      subst h1
      subst h2
      exact ⟨rfl, fun _ => ⟨rfl, rfl⟩, fun hc => absurd hc (by simp)⟩
  · intro st a b r st' h
    cases ha : a.enable_lc
    · obtain ⟨v, he⟩ := and_ok_of_count a b st ha
      rw [he] at h
      simp only [Except.ok.injEq, Prod.mk.injEq] at h
      obtain ⟨h1, h2⟩ := h
      subst h1
      subst h2
      exact ⟨rfl, fun hc => absurd hc (by simp), fun _ => ⟨rfl, rfl⟩⟩
    · obtain ⟨v, he⟩ := and_ok_of_enable a b st ha
      rw [he] at h
      simp only [Except.ok.injEq, Prod.mk.injEq] at h
      obtain ⟨h1, h2⟩ := h
      subst h1
      subst h2
      exact ⟨rfl, fun _ => ⟨rfl, rfl⟩, fun hc => absurd hc (by simp)⟩
  · intro st a b r st' h
    cases ha : a.enable_lc
    · obtain ⟨v, he⟩ := or_ok_of_count a b st ha
      rw [he] at h
      simp only [Except.ok.injEq, Prod.mk.injEq] at h
      obtain ⟨h1, h2⟩ := h
      subst h1
      subst h2
      exact ⟨rfl, fun hc => absurd hc (by simp), fun _ => ⟨rfl, rfl⟩⟩
    · obtain ⟨v, he⟩ := or_ok_of_enable a b st ha
      rw [he] at h
      simp only [Except.ok.injEq, Prod.mk.injEq] at h
      obtain ⟨h1, h2⟩ := h
      subst h1
      subst h2
      exact ⟨rfl, fun _ => ⟨rfl, rfl⟩, fun hc => absurd hc (by simp)⟩
  · intro st a b r st' h
    cases ha : a.enable_lc
    · obtain ⟨v, he⟩ := and_not_ok_of_count a b st ha
      rw [he] at h
      simp only [Except.ok.injEq, Prod.mk.injEq] at h
      obtain ⟨h1, h2⟩ := h
      subst h1
      subst h2
      exact ⟨rfl, fun hc => absurd hc (by simp), fun _ => ⟨rfl, rfl⟩⟩
    · obtain ⟨v, he⟩ := and_not_ok_of_enable a b st ha
      rw [he] at h
      simp only [Except.ok.injEq, Prod.mk.injEq] at h
      obtain ⟨h1, h2⟩ := h
      subst h1
      subst h2
      exact ⟨rfl, fun _ => ⟨rfl, rfl⟩, fun hc => absurd hc (by simp)⟩
  · intro st a b r st' h
    cases ha : a.enable_lc
    · obtain ⟨v, he⟩ := nor_ok_of_count a b st ha
      rw [he] at h
      simp only [Except.ok.injEq, Prod.mk.injEq] at h
      obtain ⟨h1, h2⟩ := h
      subst h1
      subst h2
      exact ⟨rfl, fun hc => absurd hc (by simp), fun _ => ⟨rfl, rfl⟩⟩
    · obtain ⟨v, he⟩ := nor_ok_of_enable a b st ha
      rw [he] at h
      simp only [Except.ok.injEq, Prod.mk.injEq] at h
      obtain ⟨h1, h2⟩ := h
      subst h1
      subst h2
      exact ⟨rfl, fun _ => ⟨rfl, rfl⟩, fun hc => absurd hc (by simp)⟩

theorem c10_branch_from_left_snapshot_witness :
    runMism.1.enable_lc = countCS.construct_matrices ∧
    runMism.2.constraints =
      countCS.constraints ++ [xorC mismA.var mismB.var runMism.1.var] ∧
    runMism.2.num_constraints = countCS.num_constraints + 1 := by
  have h := c10_branch_from_left_snapshot.1 countCS mismA mismB
    runMism.1 runMism.2 rfl
  exact ⟨h.1, (h.2.1 rfl).1, (h.2.1 rfl).2⟩

/-- C9: `conditionally_select` wraps both AllocatedBool operands into the
sibling Boolean abstraction's Var variant, delegates to its selection, and
unwraps; under the collaborator contract that selection over two Var operands
yields a Var result, the panic arm (modelled as the `none` result) is
unreachable. -/
theorem c9_select_no_panic {F : Type}
    (s : Boolean F → Boolean F → Boolean F → ConstraintSystem F →
      Except SynthesisError (Boolean F × ConstraintSystem F))
    (hs : ∀ (cond : Boolean F) (t f : AllocatedBool F) st r st',
      s cond (.Var t) (.Var f) st = .ok (r, st') → ∃ a, r = Boolean.Var a)
    (cond : Boolean F) (t f : AllocatedBool F) (st : ConstraintSystem F) :
    ∀ o st', conditionally_select s cond t f st = .ok (o, st') →
      ∃ a, o = some a := by
  intro o st' h
  unfold conditionally_select at h
  cases hres : s cond (.Var t) (.Var f) st with
  | error e =>
    rw [hres] at h
    exact absurd h (by simp)
  | ok p =>
    obtain ⟨r, st2⟩ := p
    obtain ⟨a, ha⟩ := hs cond t f st r st2 hres
    subst ha
    rw [hres] at h
    simp only [Except.ok.injEq, Prod.mk.injEq] at h
    exact ⟨a, h.1.symm⟩

theorem c9_select_no_panic_witness :
    ∃ a, (some mismA : Option (AllocatedBool ℤ)) = some a := by
  refine c9_select_no_panic (fun c tv fv st => .ok (tv, st)) ?_
    (Boolean.Constant true) mismA mismB countCS (some mismA) countCS rfl
  intro cond t f st r st' h
  simp only [Except.ok.injEq, Prod.mk.injEq] at h
  exact ⟨t, h.1.symm⟩

/-- C5: running any sequence of allocations and logic-operator applications
in non-materializing (counting) mode produces exactly the same final
constraint count as running the identical sequence in materializing mode. -/
theorem c5_counting_matches_materializing :
    ∀ ops : List Op,
      (run ops (freshRun true)).st.num_constraints =
      (run ops (freshRun false)).st.num_constraints :=
  fun ops => (run_count_sim ops (freshRun true) (freshRun false) rfl rfl).2

/-- C8: NOT(NOT(a)) has the same cached value as `a` (so `value()` returns
the same boolean when present and fails with AssignmentMissing when absent),
leaves the satisfiability of the constraint system unchanged, and yields a
fresh variable handle rather than `a`'s own. -/
theorem c8_double_not {F : Type} [CommRing F] [DecidableEq F]
    (st : ConstraintSystem F) (a : AllocatedBool F)
    (hwf : lcMapWfB st = true) (hc : constraintsBndB st = true)
    (ha : varBndB st.lc_map.length a.var = true)
    (n1 : AllocatedBool F) (st1 : ConstraintSystem F)
    (n2 : AllocatedBool F) (st2 : ConstraintSystem F)
    (h1 : AllocatedBool.not a st = .ok (n1, st1))
    (h2 : AllocatedBool.not n1 st1 = .ok (n2, st2)) :
    n2.value = a.value ∧ n2.value? = a.value? ∧
    is_satisfied st2 = is_satisfied st ∧
    n2.var = Variable.SymbolicLc (st.lc_map.length + 1) := by
  rw [not_ok] at h1
  simp only [Except.ok.injEq, Prod.mk.injEq] at h1
  obtain ⟨hn1, hs1⟩ := h1
  subst hn1
  subst hs1
  rw [not_ok] at h2
  simp only [Except.ok.injEq, Prod.mk.injEq] at h2
  obtain ⟨hn2, hs2⟩ := h2
  subst hn2
  subst hs2
  refine ⟨?_, ?_, ?_, ?_⟩
  · show (a.value.map (fun v => !v)).map (fun v => !v) = a.value
    cases a.value <;> simp
  · show AllocatedBool.value?
      ({ var := _, enable_lc := _,
         value := (a.value.map (fun v => !v)).map (fun v => !v) } :
        AllocatedBool F) = a.value?
    cases hv : a.value <;> simp [AllocatedBool.value?, hv]
  · have hb1 : lcBndB st.lc_map.length
        (if a.enable_lc then [((1 : F), Variable.One), (-1, a.var)] else []) = true := by
      cases a.enable_lc
      · rfl
      · show (varBndB st.lc_map.length Variable.One &&
            (varBndB st.lc_map.length a.var && true)) = true
        rw [ha]
        rfl
    have hb2 : lcBndB (st.lc_map.length + 1)
        (if st.construct_matrices then
          [((1 : F), Variable.One), (-1, Variable.SymbolicLc st.lc_map.length)]
        else []) = true := by
      cases st.construct_matrices <;> simp [lcBndB, varBndB]
    have hwf2 := lcMapWfB_extend2 st _ _ hwf hb1 hb2
    have hfin := is_satisfied_extend st
      [(if a.enable_lc then [((1 : F), Variable.One), (-1, a.var)] else []),
       (if st.construct_matrices then
          [((1 : F), Variable.One), (-1, Variable.SymbolicLc st.lc_map.length)]
        else [])] hwf hwf2 hc
    simp only [List.append_assoc, List.cons_append, List.nil_append]
    exact hfin
  · simp [List.length_append]

theorem c8_double_not_witness :
    runNot2.1.value = runA.1.value ∧ runNot2.1.value? = runA.1.value? ∧
    is_satisfied runNot2.2 = is_satisfied runA.2 ∧
    runNot2.1.var = Variable.SymbolicLc (runA.2.lc_map.length + 1) :=
  c8_double_not runA.2 runA.1 (by decide) (by decide) (by decide)
    runNot1.1 runNot1.2 runNot2.1 runNot2.2 rfl rfl
